import Mathlib

/-!
Shallow embedding of `src/dbgpt/core/awel/dag/base.py` (the AWEL DAG core):
`DAGNode` dependency wiring (`set_dependency`), `DAG` node registration and
lazily cached structural queries, `DAGVar` singleton handles, and `DAGContext`
per-run state (task outputs and namespaced shared data).

Modelling conventions:
* Python objects are heap cells addressed by a `Nat` object identity
  (Python `id()`); a `World` maps object ids to mutable node and DAG records.
* `async def` methods are modelled as plain value-returning functions
  (the suspension structure is erased).
* Python exceptions are modelled by returning the state at the point of the
  raise together with `some message`; callers short-circuit, keeping any
  mutations made before the raise (the source performs no rollback).
* Python truthiness: a `None`-or-`str` field is truthy iff it is a nonempty
  string; an object reference is truthy iff it is not `None`; a list or cache
  field is truthy iff it is neither `None` nor empty.
* The recursive `_get_nodes` traversal carries explicit fuel: on a cycle the
  Python original would exhaust the interpreter recursion limit, and every
  theorem below supplies fuel large enough for the acyclic states involved.
-/

/-- State of one `DAGNode` object: `_node_id`, `_node_name`, `_dag`
(back-reference to the owning DAG by object id), `_upstream` / `_downstream`
(lists of node object ids), and whether the node is an instance of the external
`TriggerOperator` class (used by `DAG._build`'s `isinstance` filter). -/
structure NodeState where
  nodeId : Option String
  nodeName : Option String
  dag : Option Nat
  upstream : List Nat
  downstream : List Nat
  isTrigger : Bool
deriving DecidableEq

/-- State of one `DAG` object: `dag_id`, `node_map` (node-id key to node object
id, insertion ordered like a Python dict), `node_name_to_node`, and the three
lazily computed caches `_root_nodes`, `_leaf_nodes`, `_trigger_nodes`
(`none` models Python `None`). -/
structure DAGState where
  dagId : String
  node_map : List (Option String × Nat)
  node_name_to_node : List (String × Nat)
  root_cache : Option (List Nat)
  leaf_cache : Option (List Nat)
  trigger_cache : Option (List Nat)
deriving DecidableEq

/-- The heap: every object id resolves to a node record and a DAG record
(only the ids actually mentioned by a theorem matter). -/
structure World where
  heap : Nat → NodeState
  dags : Nat → DAGState

/-- Python truthiness of an `Optional[str]` value: truthy iff a nonempty
string. -/
def pyTruthyStr : Option String → Bool
  | none => false
  | some s => !(s == "")

/-- Association-list lookup, modelling Python `dict.get`. -/
def alookup {α β : Type} [DecidableEq α] : List (α × β) → α → Option β
  | [], _ => none
  | (k, v) :: t, x => if k = x then some v else alookup t x

/-- Association-list store, modelling Python `dict[k] = v` (replaces in place,
appends fresh keys at the end, preserving dict insertion order). -/
def aset {α β : Type} [DecidableEq α] : List (α × β) → α → β → List (α × β)
  | [], k, v => [(k, v)]
  | (k', v') :: t, k, v => if k' = k then (k, v) :: t else (k', v') :: aset t k v

/-- Python `key in dict`. -/
def acontains {α β : Type} [DecidableEq α] (l : List (α × β)) (k : α) : Bool :=
  (alookup l k).isSome

/-- Replace the node record at object id `j`. -/
def modifyNode (w : World) (j : Nat) (f : NodeState → NodeState) : World :=
  { w with heap := Function.update w.heap j (f (w.heap j)) }

/-- Replace the DAG record at object id `d`. -/
def modifyDag (w : World) (d : Nat) (f : DAGState → DAGState) : World :=
  { w with dags := Function.update w.dags d (f (w.dags d)) }

/-- `node._dag = dag`. -/
def setNodeDag (w : World) (j d : Nat) : World :=
  modifyNode w j (fun n => { n with dag := some d })

/-- `node._upstream.append(other)`. -/
def pushUpstream (w : World) (i j : Nat) : World :=
  modifyNode w i (fun n => { n with upstream := n.upstream ++ [j] })

/-- `node._downstream.append(other)`. -/
def pushDownstream (w : World) (i j : Nat) : World :=
  modifyNode w i (fun n => { n with downstream := n.downstream ++ [j] })

/-- `DAGNode.__eq__`: equality of two node objects compares `node_id` only
(both sides being `DAGNode` instances). -/
def nodeEq (w : World) (i j : Nat) : Bool :=
  decide ((w.heap i).nodeId = (w.heap j).nodeId)

/-- `DAGNode.__hash__`: hash of the `node_id` when that id is truthy, else the
default per-object identity hash (modelled by the object id itself, which is
what CPython's `object.__hash__` derives its value from). -/
def nodeHash (strHash : String → Nat) (w : World) (i : Nat) : Nat :=
  match (w.heap i).nodeId with
  | some s => if s = "" then i else strHash s
  | none => i

/-- Python `node in list` membership test on a list of `DAGNode`s: identity or
`__eq__` (which compares `node_id`); identity implies `__eq__` here, so the
test reduces to node-id equality with some member. -/
def memById (w : World) (l : List Nat) (j : Nat) : Bool :=
  l.any (fun k => k == j || nodeEq w k j)

/-- `DAG._append_node`: no-op when the node id is already a key of `node_map`;
otherwise checks the (truthy) node name for a conflict — raising before any
mutation — then stores the node under its name and id and clears the cached
`_root_nodes` and `_leaf_nodes` (the source does not clear `_trigger_nodes`). -/
def append_node (d n : Nat) (w : World) : World × Option String :=
  let node := w.heap n
  let g := w.dags d
  if acontains g.node_map node.nodeId then (w, none)
  else if pyTruthyStr node.nodeName then
    match node.nodeName with
    | some nm =>
      if acontains g.node_name_to_node nm then
        (w, some ("Node name " ++ nm ++ " already exists in DAG " ++ g.dagId))
      else
        (modifyDag w d (fun g => { g with
            node_name_to_node := aset g.node_name_to_node nm n,
            node_map := aset g.node_map node.nodeId n,
            root_cache := none,
            leaf_cache := none }), none)
    | none => (w, none)
  else
    (modifyDag w d (fun g => { g with
        node_map := aset g.node_map node.nodeId n,
        root_cache := none,
        leaf_cache := none }), none)

/-- The Python set `dags = set([node.dag for node in nodes if node.dag])`
followed by `dags.add(self.dag)` when `self.dag` is truthy, as a duplicate-free
list of DAG object ids. -/
def resolvedDags (w : World) (self : Nat) (args : List Nat) : List Nat :=
  let fromArgs := (args.filterMap (fun j => (w.heap j).dag)).foldl
    (fun acc d => if d ∈ acc then acc else acc ++ [d]) []
  match (w.heap self).dag with
  | some d => if d ∈ fromArgs then fromArgs else fromArgs ++ [d]
  | none => fromArgs

/-- The `for node in nodes` loop of `DAGNode.set_dependency`: for each argument
node, when wiring upstream and the node is not yet in `self.upstream`, adopt
the DAG, register the node, and append the edge in both directions; `elif` the
node is not in `self._downstream`, do the symmetric downstream wiring; else
skip. A raise inside `_append_node` propagates, keeping prior mutations. -/
def setDepLoop (d self : Nat) (isUp : Bool) : List Nat → World → World × Option String
  | [], w => (w, none)
  | j :: rest, w =>
    if isUp && !(memById w (w.heap self).upstream j) then
      let w1 := setNodeDag w j d
      match append_node d j w1 with
      | (w2, some e) => (w2, some e)
      | (w2, none) =>
        let w3 := pushUpstream w2 self j
        let w4 := pushDownstream w3 j self
        setDepLoop d self isUp rest w4
    else if !(memById w (w.heap self).downstream j) then
      let w1 := setNodeDag w j d
      match append_node d j w1 with
      | (w2, some e) => (w2, some e)
      | (w2, none) =>
        let w3 := pushDownstream w2 self j
        let w4 := pushUpstream w3 j self
        setDepLoop d self isUp rest w4
    else setDepLoop d self isUp rest w

/-- `DAGNode.set_dependency(self, nodes, is_upstream)`: resolve the set of
distinct DAGs referenced by self and the argument nodes; raise if empty, raise
if more than one; otherwise adopt the single DAG for self, register self, and
run the wiring loop. `set_upstream` is `is_upstream = true`, `set_downstream`
(and hence the `>>` operator) is `is_upstream = false`. -/
def set_dependency (self : Nat) (args : List Nat) (isUp : Bool) (w : World) :
    World × Option String :=
  match resolvedDags w self args with
  | [] => (w, some "set dependency to current node must in a DAG context")
  | [d] =>
    let w1 := setNodeDag w self d
    match append_node d self w1 with
    | (w2, some e) => (w2, some e)
    | (w2, none) => setDepLoop d self isUp args w2
  | _ => (w, some "set dependency to current node just support in one DAG context")

/-- Python set deduplication among `DAGNode`s: two elements collide exactly
when they are the same object or when both hash to the same bucket and compare
equal, i.e. both carry the same truthy `node_id`. -/
def pySetEquiv (w : World) (i j : Nat) : Bool :=
  i == j || (pyTruthyStr (w.heap i).nodeId && nodeEq w i j)

/-- `set.add` under the deduplication of `pySetEquiv`. -/
def pySetInsert (w : World) (acc : List Nat) (j : Nat) : List Nat :=
  if acc.any (fun k => pySetEquiv w k j) then acc else acc ++ [j]

/-- `set.union`. -/
def pySetUnion (w : World) (acc l : List Nat) : List Nat :=
  l.foldl (pySetInsert w) acc

/-- `_get_nodes(node)` with the default `is_upstream=True` (the only form the
source calls): the node plus the union of the recursive traversal of each
upstream neighbour. Fuel bounds the recursion depth. -/
def getNodesUp : Nat → World → Nat → List Nat
  | 0, _, _ => []
  | fuel + 1, w, n =>
    (w.heap n).upstream.foldl (fun acc m => pySetUnion w acc (getNodesUp fuel w m)) [n]

/-- `DAG._build`: union the upstream closures of every registered node, then
cache the nodes with no upstream, the nodes with no downstream, and the
`TriggerOperator` instances. -/
def buildDag (fuel d : Nat) (w : World) : World :=
  let nodes := (w.dags d).node_map.foldl
    (fun acc p => pySetUnion w acc (getNodesUp fuel w p.2)) []
  let roots := nodes.filter (fun n => (w.heap n).upstream.isEmpty)
  let leaves := nodes.filter (fun n => (w.heap n).downstream.isEmpty)
  let trigs := nodes.filter (fun n => (w.heap n).isTrigger)
  modifyDag w d (fun g => { g with
    root_cache := some roots,
    leaf_cache := some leaves,
    trigger_cache := some trigs })

/-- Python `if not cached_list:`— a cache is rebuilt when it is `None` or the
empty list. -/
def cacheFalsy : Option (List Nat) → Bool
  | none => true
  | some l => l.isEmpty

/-- `DAG.root_nodes` property: rebuild when the cache is falsy, then return
the cached list (the getter mutates the DAG record). -/
def root_nodes (fuel d : Nat) (w : World) : List Nat × World :=
  if cacheFalsy (w.dags d).root_cache then
    let w' := buildDag fuel d w
    (((w'.dags d).root_cache).getD [], w')
  else ((w.dags d).root_cache.getD [], w)

/-- `DAG.leaf_nodes` property. -/
def leaf_nodes (fuel d : Nat) (w : World) : List Nat × World :=
  if cacheFalsy (w.dags d).leaf_cache then
    let w' := buildDag fuel d w
    (((w'.dags d).leaf_cache).getD [], w')
  else ((w.dags d).leaf_cache.getD [], w)

/-- `DAG.trigger_nodes` property. -/
def trigger_nodes (fuel d : Nat) (w : World) : List Nat × World :=
  if cacheFalsy (w.dags d).trigger_cache then
    let w' := buildDag fuel d w
    (((w'.dags d).trigger_cache).getD [], w')
  else ((w.dags d).trigger_cache.getD [], w)

/-- Does the DAG's `node_map` hold the node object `j` as a value? -/
def mapsNode (g : DAGState) (j : Nat) : Bool :=
  g.node_map.any (fun p => p.2 == j)

/-- The two class-level singleton handles of `DAGVar`: `_system_app` and
`_executor` (handles modelled as opaque `Nat` tokens). -/
structure DAGVarState where
  system_app : Option Nat
  executor : Option Nat
deriving DecidableEq

/-- `DAGVar.set_current_system_app`: when `_system_app` is already truthy the
call only logs a warning and changes nothing; otherwise it stores the handle. -/
def set_current_system_app (s : DAGVarState) (app : Nat) : DAGVarState :=
  if s.system_app.isSome then s else { s with system_app := some app }

/-- `DAGVar.get_current_system_app`. -/
def get_current_system_app (s : DAGVarState) : Option Nat :=
  s.system_app

/-- `DAGVar.set_executor`: an unconditional assignment, with no already-set
guard. -/
def set_executor (s : DAGVarState) (e : Nat) : DAGVarState :=
  { s with executor := some e }

/-- `DAGVar.get_executor`. -/
def get_executor (s : DAGVarState) : Option Nat :=
  s.executor

/-- Python exceptions raised by `DAGContext` accessors. -/
inductive PyErr where
  | valueError (msg : String)
  | attributeError (msg : String)
deriving DecidableEq

/-- The external `TaskContext` at its interface boundary: the only attribute
the source reads is `task_output` (outputs modelled as strings). -/
structure TaskContext where
  task_output : String
deriving DecidableEq

/-- `DAGContext` per-run state: streaming flag, `_share_data`,
`_node_to_outputs` (node id to `TaskContext`), `_node_name_to_ids`. Shared
data values are modelled as strings. -/
structure DAGContext where
  streaming_call : Bool
  share_data : List (String × String)
  node_to_outputs : List (String × TaskContext)
  node_name_to_ids : List (String × String)
deriving DecidableEq

/-- `DAGContext.get_task_output`: rejects `None`; looks the name up in
`_node_name_to_ids`; when the resulting id is truthy it raises
`"Task name ... not exists in DAG"`; otherwise it calls
`self._task_outputs.get(node_id).task_output`, where a failed lookup yields
`None` and the attribute access on `None` raises `AttributeError`. -/
def get_task_output (ctx : DAGContext) (task_name : Option String) :
    Except PyErr String :=
  match task_name with
  | none => .error (.valueError "task_name can't be None")
  | some nm =>
    let node_id := alookup ctx.node_name_to_ids nm
    if pyTruthyStr node_id then
      .error (.valueError ("Task name " ++ nm ++ " not exists in DAG"))
    else
      match (match node_id with
             | some i => alookup ctx.node_to_outputs i
             | none => none) with
      | some tc => .ok tc.task_output
      | none => .error (.attributeError
          "'NoneType' object has no attribute 'task_output'")

/-- `_build_task_key(task_name, key)`: the f-string
`f"{task_name}___$$$$$$___{key}"`. -/
def build_task_key (task_name key : String) : String :=
  task_name ++ "___$$$$$$___" ++ key

/-- `DAGContext.get_from_share_data` (async erased): `dict.get`. -/
def get_from_share_data (ctx : DAGContext) (key : String) : Option String :=
  alookup ctx.share_data key

/-- `DAGContext.save_to_share_data` (async erased): raises when the key exists
and `overwrite` is falsy, else stores. -/
def save_to_share_data (ctx : DAGContext) (key data : String)
    (overwrite : Option String) : Except PyErr DAGContext :=
  if acontains ctx.share_data key && !(pyTruthyStr overwrite) then
    .error (.valueError ("Share data key " ++ key ++ " already exists"))
  else
    .ok { ctx with share_data := aset ctx.share_data key data }

/-- `DAGContext.get_task_share_data`: rejects `None` arguments, then reads the
flat store under the flattened key. (The source returns the coroutine of
`get_from_share_data` without awaiting it; with the suspension structure
erased this is the stored value.) -/
def get_task_share_data (ctx : DAGContext) (task_name key : Option String) :
    Except PyErr (Option String) :=
  match task_name with
  | none => .error (.valueError "task_name can't be None")
  | some t =>
    match key with
    | none => .error (.valueError "key can't be None")
    | some k => .ok (get_from_share_data ctx (build_task_key t k))

/-- `DAGContext.save_task_share_data`: rejects `None` arguments, then writes
the flat store under the flattened key. -/
def save_task_share_data (ctx : DAGContext) (task_name key : Option String)
    (data : String) (overwrite : Option String) : Except PyErr DAGContext :=
  match task_name with
  | none => .error (.valueError "task_name can't be None")
  | some t =>
    match key with
    | none => .error (.valueError "key can't be None")
    | some k => save_to_share_data ctx (build_task_key t k) data overwrite

/-! ### Shared helper lemmas about the dict model -/

theorem alookup_aset_self {α β : Type} [DecidableEq α] (l : List (α × β)) (k : α) (v : β) :
    alookup (aset l k v) k = some v := by
  induction l with
  | nil => simp [aset, alookup]
  | cons h t ih =>
    obtain ⟨k', v'⟩ := h
    by_cases hk : k' = k
    · simp [aset, hk, alookup]
    · simp [aset, hk, alookup, ih]

theorem alookup_aset_ne {α β : Type} [DecidableEq α] (l : List (α × β)) (k k' : α) (v : β)
    (h : k' ≠ k) : alookup (aset l k v) k' = alookup l k' := by
  have h' : ¬(k = k') := fun hh => h hh.symm
  induction l with
  | nil => simp [aset, alookup, h']
  | cons hd t ih =>
    obtain ⟨a, b⟩ := hd
    by_cases ha : a = k
    · subst ha
      simp [aset, alookup, h']
    · simp [aset, ha, alookup, ih]

theorem aset_self_mem {α β : Type} [DecidableEq α] (l : List (α × β)) (k : α) (v : β) :
    (k, v) ∈ aset l k v := by
  induction l with
  | nil => simp [aset]
  | cons hd t ih =>
    obtain ⟨a, b⟩ := hd
    by_cases ha : a = k
    · simp [aset, ha]
    · simp [aset, ha, ih]

theorem aset_of_not_contains {α β : Type} [DecidableEq α] (l : List (α × β)) (k : α) (v : β)
    (h : acontains l k = false) : aset l k v = l ++ [(k, v)] := by
  induction l with
  | nil => simp [aset]
  | cons hd t ih =>
    obtain ⟨a, b⟩ := hd
    by_cases ha : a = k
    · simp [acontains, alookup, ha] at h
    · have ht : acontains t k = false := by
        simpa [acontains, alookup, ha] using h
      simp [aset, ha, ih ht]

/-- Right cancellation for string concatenation, used to show distinct task
names produce distinct flattened keys. -/
theorem string_append_right_cancel (a b s : String) (h : a ++ s = b ++ s) : a = b := by
  have hd : a.data ++ s.data = b.data ++ s.data := by
    have := congrArg String.data h
    simpa [String.data_append] using this
  exact String.ext (List.append_cancel_right hd)

/-- Distinct task names flatten to distinct effective keys, whatever the key. -/
theorem build_task_key_left_inj (t1 t2 k : String)
    (h : build_task_key t1 k = build_task_key t2 k) : t1 = t2 := by
  have h1 : (t1 ++ "___$$$$$$___") ++ k = (t2 ++ "___$$$$$$___") ++ k := by
    simpa [build_task_key, String.append_assoc] using h
  exact string_append_right_cancel _ _ _ (string_append_right_cancel _ _ _ h1)

/-! ### Concrete states used by the per-claim theorems -/

/-- A heap cell for object ids a theorem does not mention. -/
def blankNode : NodeState := ⟨none, none, none, [], [], false⟩

/-- Run context exhibiting `get_task_output`: the name `"t"` maps to node id
`"id1"`, and an output is recorded for `"id1"`. -/
def ctxC1 : DAGContext := ⟨false, [], [("id1", ⟨"out"⟩)], [("t", "id1")]⟩

/-- C1: the spec says `get_task_output` raises the unknown-task error exactly
when the name is absent from `_node_name_to_ids` and otherwise returns the
stored output for the mapped id.  The code's membership test is inverted
(`if node_id: raise`): for the present name `"t"` (mapped to `"id1"`, which has
a recorded output) it raises `"Task name t not exists in DAG"`, and for an
absent name it dereferences the failed lookup (`.get(None).task_output`),
raising `AttributeError` instead of the unknown-task error. -/
theorem C1_get_task_output_inverted :
    get_task_output ctxC1 (some "t") =
      .error (.valueError "Task name t not exists in DAG") ∧
    get_task_output ctxC1 (some "missing") =
      .error (.attributeError "'NoneType' object has no attribute 'task_output'") :=
  ⟨rfl, rfl⟩

/-- Two id-bearing nodes (object ids 1 and 2) bound to DAG 0, not yet wired. -/
def wC2 : World :=
  ⟨fun n => if n = 1 then ⟨some "a", none, some 0, [], [], false⟩
    else if n = 2 then ⟨some "b", none, some 0, [], [], false⟩
    else blankNode,
   fun _ => ⟨"g", [], [], none, none, none⟩⟩

/-- The state after `b.set_upstream(a)` (self = 2, args = [1]). -/
def wC2a : World := (set_dependency 2 [1] true wC2).1

/-- The state after repeating the same `b.set_upstream(a)` call. -/
def wC2b : World := (set_dependency 2 [1] true wC2a).1

/-- C2: the claim says repeating the same wiring call leaves both adjacency
lists unchanged.  After the first `b.set_upstream(a)` the lists are correct
(`b.upstream = [a]`, `a.downstream = [b]`, the other two lists empty), but the
repeated call falls through the `elif` branch of `set_dependency` (because
`is_upstream and node not in self.upstream` is false) and appends a reverse
edge: `a` lands in `b`'s downstream list and `b` in `a`'s upstream list. -/
theorem C2_repeated_set_upstream_adds_reverse_edge :
    ((wC2a.heap 2).upstream = [1] ∧ (wC2a.heap 2).downstream = [] ∧
     (wC2a.heap 1).downstream = [2] ∧ (wC2a.heap 1).upstream = []) ∧
    (wC2b.heap 2).downstream = [1] ∧ (wC2b.heap 1).upstream = [2] := by
  refine ⟨⟨?_, ?_, ?_, ?_⟩, ?_, ?_⟩ <;> rfl

/-- C3 counterexample: a task name containing the internal namespacing
separator `"___$$$$$$___"` is accepted, not rejected — both the write and the
read complete without error, contradicting the claimed ReservedCharacter
check. -/
theorem C3_separator_not_rejected :
    save_task_share_data ⟨false, [], [], []⟩ (some "t1___$$$$$$___k") (some "x") "v" none =
      .ok ⟨false, [("t1___$$$$$$___k___$$$$$$___x", "v")], [], []⟩ ∧
    get_task_share_data ⟨false, [], [], []⟩ (some "t1___$$$$$$___k") (some "x") =
      .ok none :=
  ⟨rfl, rfl⟩

/-- C3 (amended): the task-scoped shared-data operations perform no separator
validation — they reject only `None` arguments.  For every task name and key,
including ones containing the separator, a write whose flattened key is not
yet present succeeds, and the read likewise completes without error.
Consequently distinct pairs can collide: `("t1", "k<sep>x")` and
`("t1<sep>k", "x")` flatten to the same effective key. -/
theorem C3_no_separator_validation (ctx : DAGContext) (t k data : String)
    (ow : Option String)
    (h : acontains ctx.share_data (build_task_key t k) = false) :
    save_task_share_data ctx (some t) (some k) data ow =
      .ok { ctx with share_data := aset ctx.share_data (build_task_key t k) data } ∧
    (get_task_share_data ctx (some t) (some k)).isOk = true ∧
    build_task_key "t1" ("k___$$$$$$___x") = build_task_key ("t1___$$$$$$___k") "x" := by
  refine ⟨?_, rfl, rfl⟩
  simp [save_task_share_data, save_to_share_data, h]

/-- Witness for `C3_no_separator_validation` at a separator-containing task
name and an empty store. -/
theorem C3_no_separator_validation_witness :
    save_task_share_data ⟨false, [], [], []⟩ (some "a___$$$$$$___b") (some "k") "v" none =
      .ok ⟨false, [("a___$$$$$$___b___$$$$$$___k", "v")], [], []⟩ ∧
    (get_task_share_data ⟨false, [], [], []⟩ (some "a___$$$$$$___b") (some "k")).isOk = true ∧
    build_task_key "t1" ("k___$$$$$$___x") = build_task_key ("t1___$$$$$$___k") "x" :=
  C3_no_separator_validation ⟨false, [], [], []⟩ "a___$$$$$$___b" "k" "v" none rfl

/-- C5 counterexample: the work-execution pool handle is not set-at-most-once.
Starting from the unset state, a second `set_executor` call is not ignored:
the observed value is the second handle, not the first. -/
theorem C5_set_executor_overwrites :
    get_executor (set_executor (set_executor ⟨none, none⟩ 1) 2) = some 2 ∧
    (some 2 : Option Nat) ≠ some 1 :=
  ⟨rfl, by decide⟩

/-- C5 (amended): only the shared application handle is set at most once —
a second `set_current_system_app` is ignored and the first value stays
observable.  The executor handle has no guard: every `set_executor`
overwrites, so after two calls the observed value is the second. -/
theorem C5_system_app_once_executor_overwritten (s : DAGVarState)
    (a1 a2 e1 e2 : Nat) (h : s.system_app = none) :
    get_current_system_app (set_current_system_app (set_current_system_app s a1) a2) =
      some a1 ∧
    get_executor (set_executor (set_executor s e1) e2) = some e2 := by
  constructor
  · simp [set_current_system_app, get_current_system_app, h]
  · rfl

/-- Witness for `C5_system_app_once_executor_overwritten` from the unset
state. -/
theorem C5_system_app_once_executor_overwritten_witness :
    get_current_system_app
      (set_current_system_app (set_current_system_app ⟨none, none⟩ 7) 8) = some 7 ∧
    get_executor (set_executor (set_executor ⟨none, none⟩ 5) 6) = some 6 :=
  C5_system_app_once_executor_overwritten ⟨none, none⟩ 7 8 5 6 rfl

/-- C10: for any two distinct node objects whose `node_id` is `None`,
`__eq__` compares `None == None` and returns true, while `__hash__` falls back
to the per-object identity hash, so the two hashes differ: equal objects with
unequal hashes at the public interface. -/
theorem C10_eq_true_hash_differs (strHash : String → Nat) (w : World) (i j : Nat)
    (hne : i ≠ j) (hi : (w.heap i).nodeId = none) (hj : (w.heap j).nodeId = none) :
    nodeEq w i j = true ∧ nodeHash strHash w i ≠ nodeHash strHash w j := by
  constructor
  · simp [nodeEq, hi, hj]
  · simp [nodeHash, hi, hj, hne]

/-- Two fresh unbound nodes (no DAG, no id) at object ids 1 and 2. -/
def wC10 : World :=
  ⟨fun n => if n = 1 then ⟨none, none, none, [], [], false⟩
    else if n = 2 then ⟨none, none, none, [], [], false⟩
    else blankNode,
   fun _ => ⟨"g", [], [], none, none, none⟩⟩

/-- Witness for `C10_eq_true_hash_differs`: two fresh unbound nodes at object
ids 1 and 2. -/
theorem C10_eq_true_hash_differs_witness :
    nodeEq wC10 1 2 = true ∧
    nodeHash (fun _ => 0) wC10 1 ≠ nodeHash (fun _ => 0) wC10 2 :=
  C10_eq_true_hash_differs (fun _ => 0) wC10 1 2 (by decide) rfl rfl

/-- C9: registering a second, distinct node (a fresh node id) whose truthy
name is already taken in the same DAG raises the naming-conflict error with
the registry untouched (the raise happens before any mutation), while
registering that same node into a DAG where the name is free succeeds and
stores the node in that DAG's node map. -/
theorem C9_node_names_unique_per_dag (w : World) (d1 d2 n2 : Nat) (nm : String)
    (hname : (w.heap n2).nodeName = some nm) (hnm : nm ≠ "")
    (hid1 : acontains (w.dags d1).node_map (w.heap n2).nodeId = false)
    (hconf : acontains (w.dags d1).node_name_to_node nm = true)
    (hid2 : acontains (w.dags d2).node_map (w.heap n2).nodeId = false)
    (hfree : acontains (w.dags d2).node_name_to_node nm = false) :
    append_node d1 n2 w =
      (w, some ("Node name " ++ nm ++ " already exists in DAG " ++ (w.dags d1).dagId)) ∧
    (append_node d2 n2 w).2 = none ∧
    mapsNode ((append_node d2 n2 w).1.dags d2) n2 = true := by
  refine ⟨?_, ?_, ?_⟩
  · simp [append_node, hid1, hname, pyTruthyStr, hnm, hconf]
  · simp [append_node, hid2, hname, pyTruthyStr, hnm, hfree]
  · simp only [append_node, hid2, hname, pyTruthyStr, hnm, hfree]
    simp only [Bool.not_eq_true', beq_eq_false_iff_ne, ne_eq, hnm, not_false_eq_true,
      if_true, if_false, Bool.false_eq_true, mapsNode, modifyDag, Function.update_same]
    refine List.any_eq_true.2 ⟨((w.heap n2).nodeId, n2), aset_self_mem _ _ _, by simp⟩

/-- The world for the C9 witness: node 1 is registered in DAG 0 under the name
`"x"`; node 2 is a distinct node (fresh id `"b"`) that also carries the name
`"x"`; DAG 1 is empty. -/
def wC9 : World :=
  ⟨fun n => if n = 1 then ⟨some "a", some "x", some 0, [], [], false⟩
    else if n = 2 then ⟨some "b", some "x", none, [], [], false⟩
    else blankNode,
   fun g => if g = 0 then ⟨"g0", [(some "a", 1)], [("x", 1)], none, none, none⟩
    else ⟨"g1", [], [], none, none, none⟩⟩

/-- Witness for `C9_node_names_unique_per_dag` at `wC9`. -/
theorem C9_node_names_unique_per_dag_witness :
    append_node 0 2 wC9 =
      (wC9, some ("Node name " ++ "x" ++ " already exists in DAG " ++ (wC9.dags 0).dagId)) ∧
    (append_node 1 2 wC9).2 = none ∧
    mapsNode ((append_node 1 2 wC9).1.dags 1) 2 = true :=
  C9_node_names_unique_per_dag wC9 0 1 2 "x" rfl (by decide) rfl rfl rfl rfl

/-- C6: task-scoped shared data is namespaced per producer.  For distinct task
names `t1 ≠ t2` and any key `k`, the flattened keys differ (right cancellation
of string concatenation), so two successful writes never collide and each read
returns the value written under its own task name. -/
theorem C6_task_shared_data_namespaced (ctx ctx1 ctx2 : DAGContext)
    (t1 t2 k x y : String) (hne : t1 ≠ t2)
    (h1 : save_task_share_data ctx (some t1) (some k) x none = .ok ctx1)
    (h2 : save_task_share_data ctx1 (some t2) (some k) y none = .ok ctx2) :
    get_task_share_data ctx2 (some t1) (some k) = .ok (some x) ∧
    get_task_share_data ctx2 (some t2) (some k) = .ok (some y) := by
  have hkey : build_task_key t1 k ≠ build_task_key t2 k :=
    fun hh => hne (build_task_key_left_inj _ _ _ hh)
  simp only [save_task_share_data, save_to_share_data] at h1 h2
  split at h1
  · exact absurd h1 (by simp)
  · split at h2
    · exact absurd h2 (by simp)
    · simp only [Except.ok.injEq] at h1 h2
      subst h1
      subst h2
      constructor
      · simp only [get_task_share_data, get_from_share_data]
        rw [alookup_aset_ne _ _ _ _ hkey, alookup_aset_self]
      · simp only [get_task_share_data, get_from_share_data]
        rw [alookup_aset_self]

/-- Witness for `C6_task_shared_data_namespaced`: two writes under task names
`"t1"` and `"t2"` with the same key `"k"` into an empty run context. -/
theorem C6_task_shared_data_namespaced_witness :
    get_task_share_data
      ⟨false, [("t1___$$$$$$___k", "x"), ("t2___$$$$$$___k", "y")], [], []⟩
      (some "t1") (some "k") = .ok (some "x") ∧
    get_task_share_data
      ⟨false, [("t1___$$$$$$___k", "x"), ("t2___$$$$$$___k", "y")], [], []⟩
      (some "t2") (some "k") = .ok (some "y") :=
  C6_task_shared_data_namespaced ⟨false, [], [], []⟩
    ⟨false, [("t1___$$$$$$___k", "x")], [], []⟩
    ⟨false, [("t1___$$$$$$___k", "x"), ("t2___$$$$$$___k", "y")], [], []⟩
    "t1" "t2" "k" "x" "y" (by decide) rfl rfl

/-- DAG 0 with one registered trigger node (object 1); object 2 is a second
trigger node bound to DAG 0 but not yet registered. -/
def wC4 : World :=
  ⟨fun n => if n = 1 then ⟨some "t1", none, some 0, [], [], true⟩
    else if n = 2 then ⟨some "t2", none, some 0, [], [], true⟩
    else blankNode,
   fun _ => ⟨"g", [(some "t1", 1)], [], none, none, none⟩⟩

/-- `wC4` after one `trigger_nodes` read (all three caches are now filled). -/
def wC4a : World := (trigger_nodes 3 0 wC4).2

/-- `wC4a` after `_append_node` of the second trigger node. -/
def wC4b : World := (append_node 0 2 wC4a).1

/-- C4 counterexample: `_append_node` clears only the root and leaf caches.
After a `trigger_nodes` read filled the caches, adding the second trigger node
succeeds and registers it, yet the next `trigger_nodes` read still returns the
stale cached `[1]`, while recomputing from the current registry yields
`[1, 2]`. -/
theorem C4_trigger_cache_stale :
    (append_node 0 2 wC4a).2 = none ∧
    mapsNode (wC4b.dags 0) 2 = true ∧
    (trigger_nodes 3 0 wC4b).1 = [1] ∧
    ((buildDag 3 0 wC4b).dags 0).trigger_cache = some [1, 2] :=
  ⟨rfl, rfl, rfl, rfl⟩

/-- C4 (amended): registering a genuinely new node (fresh node id) without a
naming conflict invalidates the cached root and leaf sets — both are reset so
the next read recomputes from the registry — but leaves the trigger cache
untouched, which can therefore go stale. -/
theorem C4_append_clears_root_leaf_only (w : World) (d n : Nat)
    (hfresh : acontains (w.dags d).node_map (w.heap n).nodeId = false)
    (hok : (append_node d n w).2 = none) :
    ((append_node d n w).1.dags d).root_cache = none ∧
    ((append_node d n w).1.dags d).leaf_cache = none ∧
    ((append_node d n w).1.dags d).trigger_cache = (w.dags d).trigger_cache := by
  rcases hname : (w.heap n).nodeName with _ | nm
  · simp [append_node, hfresh, hname, pyTruthyStr, modifyDag]
  · by_cases hnm : nm = ""
    · simp [append_node, hfresh, hname, pyTruthyStr, hnm, modifyDag]
    · by_cases hconf : acontains (w.dags d).node_name_to_node nm = true
      · exfalso
        simp [append_node, hfresh, hname, pyTruthyStr, hnm, hconf] at hok
      · simp only [Bool.not_eq_true] at hconf
        simp [append_node, hfresh, hname, pyTruthyStr, hnm, hconf, modifyDag]

/-- Witness for `C4_append_clears_root_leaf_only`: appending node 2 to the
already-read state `wC4a`, whose trigger cache holds `[1]`. -/
theorem C4_append_clears_root_leaf_only_witness :
    (wC4b.dags 0).root_cache = none ∧
    (wC4b.dags 0).leaf_cache = none ∧
    (wC4b.dags 0).trigger_cache = (wC4a.dags 0).trigger_cache :=
  C4_append_clears_root_leaf_only wC4a 0 2 rfl rfl

/-- Unfolding equation for one step of the `_get_nodes` traversal. -/
theorem getNodesUp_succ (fuel : Nat) (w : World) (n : Nat) :
    getNodesUp (fuel + 1) w n =
      (w.heap n).upstream.foldl (fun acc m => pySetUnion w acc (getNodesUp fuel w m)) [n] :=
  rfl

/-- C8: for any three distinct nodes (distinct objects with distinct node ids)
freshly bound to one DAG and wired as the chain `a >> b >> c`, both wiring
calls succeed, `root_nodes` returns exactly `[a]` and `leaf_nodes` exactly
`[c]`, and both queries are stable: a repeated read returns the same list and
leaves the state untouched (the first read fills the caches, later reads hit
them). -/
theorem C8_chain_root_is_a_leaf_is_c (w : World) (g na nb nc : Nat)
    (sa sb sc gid : String) (ta tb tc : Bool)
    (hab : na ≠ nb) (hac : na ≠ nc) (hbc : nb ≠ nc)
    (hsab : sa ≠ sb) (hsac : sa ≠ sc) (hsbc : sb ≠ sc)
    (ha : w.heap na = ⟨some sa, none, some g, [], [], ta⟩)
    (hb : w.heap nb = ⟨some sb, none, some g, [], [], tb⟩)
    (hc : w.heap nc = ⟨some sc, none, some g, [], [], tc⟩)
    (hg : w.dags g = ⟨gid, [], [], none, none, none⟩)
    (w1 w2 : World) (e1 e2 : Option String)
    (hp1 : set_dependency na [nb] false w = (w1, e1))
    (hp2 : set_dependency nb [nc] false w1 = (w2, e2)) :
    e1 = none ∧ e2 = none ∧
    (root_nodes 3 g w2).1 = [na] ∧
    root_nodes 3 g (root_nodes 3 g w2).2 = root_nodes 3 g w2 ∧
    (leaf_nodes 3 g (root_nodes 3 g w2).2).1 = [nc] ∧
    leaf_nodes 3 g (leaf_nodes 3 g (root_nodes 3 g w2).2).2 =
      leaf_nodes 3 g (root_nodes 3 g w2).2 := by
  have simpset1 : (set_dependency na [nb] false w).2 = none ∧
      ((set_dependency na [nb] false w).1.heap na = ⟨some sa, none, some g, [], [nb], ta⟩ ∧
       (set_dependency na [nb] false w).1.heap nb = ⟨some sb, none, some g, [na], [], tb⟩ ∧
       (set_dependency na [nb] false w).1.heap nc = w.heap nc ∧
       (set_dependency na [nb] false w).1.dags g =
         ⟨gid, [(some sa, na), (some sb, nb)], [], none, none, none⟩) := by
    simp [set_dependency, resolvedDags, ha, hb, setDepLoop, setNodeDag, modifyNode,
      append_node, modifyDag, acontains, alookup, aset, pyTruthyStr, memById, nodeEq,
      pushUpstream, pushDownstream, Function.update, hg, hab, hac, hbc, hsab, hsac, hsbc,
      hab.symm, hac.symm, hbc.symm, hsab.symm, hsac.symm, hsbc.symm]
  obtain ⟨hE1, hW1a, hW1b, hW1c, hW1g⟩ := simpset1
  have hw1 : (set_dependency na [nb] false w).1 = w1 := by rw [hp1]
  have he1 : e1 = none := by rw [← hE1, hp1]
  rw [hw1] at hW1a hW1b hW1c hW1g
  rw [hc] at hW1c
  have simpset2 : (set_dependency nb [nc] false w1).2 = none ∧
      ((set_dependency nb [nc] false w1).1.heap na = ⟨some sa, none, some g, [], [nb], ta⟩ ∧
       (set_dependency nb [nc] false w1).1.heap nb = ⟨some sb, none, some g, [na], [nc], tb⟩ ∧
       (set_dependency nb [nc] false w1).1.heap nc = ⟨some sc, none, some g, [nb], [], tc⟩ ∧
       (set_dependency nb [nc] false w1).1.dags g =
         ⟨gid, [(some sa, na), (some sb, nb), (some sc, nc)], [], none, none, none⟩) := by
    simp [set_dependency, resolvedDags, hW1a, hW1b, hW1c, setDepLoop, setNodeDag, modifyNode,
      append_node, modifyDag, acontains, alookup, aset, pyTruthyStr, memById, nodeEq,
      pushUpstream, pushDownstream, Function.update, hW1g, hab, hac, hbc, hsab, hsac, hsbc,
      hab.symm, hac.symm, hbc.symm, hsab.symm, hsac.symm, hsbc.symm]
  obtain ⟨hE2, hW2a, hW2b, hW2c, hW2g⟩ := simpset2
  have hw2 : (set_dependency nb [nc] false w1).1 = w2 := by rw [hp2]
  have he2 : e2 = none := by rw [← hE2, hp2]
  rw [hw2] at hW2a hW2b hW2c hW2g
  have hga : getNodesUp 3 w2 na = [na] := by
    rw [show (3 : Nat) = 2 + 1 from rfl, getNodesUp_succ, hW2a]
    rfl
  have hgb : getNodesUp 3 w2 nb = [nb, na] := by
    rw [show (3 : Nat) = 2 + 1 from rfl, getNodesUp_succ, hW2b]
    simp only [List.foldl_cons, List.foldl_nil]
    rw [show (2 : Nat) = 1 + 1 from rfl, getNodesUp_succ, hW2a]
    simp [pySetUnion, pySetInsert, pySetEquiv, nodeEq, pyTruthyStr, hW2a, hW2b,
      hab, hab.symm, hsab, hsab.symm]
  have hgc : getNodesUp 3 w2 nc = [nc, nb, na] := by
    rw [show (3 : Nat) = 2 + 1 from rfl, getNodesUp_succ, hW2c]
    simp only [List.foldl_cons, List.foldl_nil]
    rw [show (2 : Nat) = 1 + 1 from rfl, getNodesUp_succ, hW2b]
    simp only [List.foldl_cons, List.foldl_nil]
    rw [show (1 : Nat) = 0 + 1 from rfl, getNodesUp_succ, hW2a]
    simp [pySetUnion, pySetInsert, pySetEquiv, nodeEq, pyTruthyStr, hW2a, hW2b, hW2c,
      hab, hac, hbc, hab.symm, hac.symm, hbc.symm, hsab, hsac, hsbc,
      hsab.symm, hsac.symm, hsbc.symm]
  have hbuild : ((buildDag 3 g w2).dags g).root_cache = some [na] ∧
      ((buildDag 3 g w2).dags g).leaf_cache = some [nc] := by
    simp only [buildDag, hW2g, List.foldl_cons, List.foldl_nil, hga, hgb, hgc,
      modifyDag, Function.update_same]
    simp [pySetUnion, pySetInsert, pySetEquiv, nodeEq, pyTruthyStr, hW2a, hW2b, hW2c,
      hab, hac, hbc, hab.symm, hac.symm, hbc.symm, hsab, hsac, hsbc,
      hsab.symm, hsac.symm, hsbc.symm, List.filter]
  obtain ⟨hbroot, hbleaf⟩ := hbuild
  have hroot : root_nodes 3 g w2 = ([na], buildDag 3 g w2) := by
    simp [root_nodes, cacheFalsy, hW2g, hbroot]
  have hroot2 : root_nodes 3 g (buildDag 3 g w2) = ([na], buildDag 3 g w2) := by
    simp [root_nodes, cacheFalsy, hbroot]
  have hleaf : leaf_nodes 3 g (buildDag 3 g w2) = ([nc], buildDag 3 g w2) := by
    simp [leaf_nodes, cacheFalsy, hbleaf]
  refine ⟨he1, he2, ?_, ?_, ?_, ?_⟩
  · rw [hroot]
  · rw [hroot]
    exact hroot2
  · simp [hroot, hleaf]
  · simp [hroot, hleaf]

/-- Three id-bearing nodes bound to the empty DAG 0, not yet wired. -/
def wC8 : World :=
  ⟨fun n => if n = 1 then ⟨some "a", none, some 0, [], [], false⟩
    else if n = 2 then ⟨some "b", none, some 0, [], [], false⟩
    else if n = 3 then ⟨some "c", none, some 0, [], [], false⟩
    else blankNode,
   fun _ => ⟨"g", [], [], none, none, none⟩⟩

/-- `wC8` after `a >> b >> c` (two `set_downstream` calls). -/
def wC8b : World :=
  (set_dependency 2 [3] false (set_dependency 1 [2] false wC8).1).1

/-- Witness for `C8_chain_root_is_a_leaf_is_c` on the concrete chain
`1 >> 2 >> 3` in DAG 0. -/
theorem C8_chain_root_is_a_leaf_is_c_witness :
    (set_dependency 1 [2] false wC8).2 = none ∧
    (set_dependency 2 [3] false (set_dependency 1 [2] false wC8).1).2 = none ∧
    (root_nodes 3 0 wC8b).1 = [1] ∧
    root_nodes 3 0 (root_nodes 3 0 wC8b).2 = root_nodes 3 0 wC8b ∧
    (leaf_nodes 3 0 (root_nodes 3 0 wC8b).2).1 = [3] ∧
    leaf_nodes 3 0 (leaf_nodes 3 0 (root_nodes 3 0 wC8b).2).2 =
      leaf_nodes 3 0 (root_nodes 3 0 wC8b).2 :=
  C8_chain_root_is_a_leaf_is_c wC8 0 1 2 3 "a" "b" "c" "g" false false false
    (by decide) (by decide) (by decide) (by decide) (by decide) (by decide)
    rfl rfl rfl rfl
    (set_dependency 1 [2] false wC8).1 wC8b
    (set_dependency 1 [2] false wC8).2
    (set_dependency 2 [3] false (set_dependency 1 [2] false wC8).1).2
    rfl rfl

/-- The wiring state reached after `a.set_upstream([u1])` where `a` has a node
id and `u1`, `u2` are nodes constructed unbound (node id `None`): `a` (object
1) has upstream `[2]`, `u1` (object 2) sits in the node map under the `None`
key, and `u2` (object 3) is still unbound. -/
def wC7 : World :=
  ⟨fun n => if n = 1 then ⟨some "ida", none, some 0, [2], [], false⟩
    else if n = 2 then ⟨none, none, some 0, [], [1], false⟩
    else if n = 3 then ⟨none, none, none, [], [], false⟩
    else blankNode,
   fun _ => ⟨"g", [(some "ida", 1), (none, 2)], [], none, none, none⟩⟩

/-- C7 counterexample: on `a.set_upstream([u2])` the resolved-graph set is the
singleton `[0]` and the call completes without error, and `u2` (which lacked a
graph) does adopt DAG 0 — but it is never stored in the node map: the `None`
key already maps to the distinct object `u1`, so `_append_node` early-returns
and `u2` stays outside the registry, contradicting "each is registered into
the graph's node map". -/
theorem C7_argument_left_unregistered :
    resolvedDags wC7 1 [3] = [0] ∧
    (set_dependency 1 [3] true wC7).2 = none ∧
    ((set_dependency 1 [3] true wC7).1.heap 3).dag = some 0 ∧
    mapsNode ((set_dependency 1 [3] true wC7).1.dags 0) 3 = false :=
  ⟨rfl, rfl, rfl, rfl⟩

/-- `_dag` assignment leaves every node id unchanged. -/
theorem setNodeDag_nodeId (w : World) (j d k : Nat) :
    ((setNodeDag w j d).heap k).nodeId = (w.heap k).nodeId := by
  by_cases h : k = j <;> simp [setNodeDag, modifyNode, Function.update_apply, h]

/-- `_dag` assignment leaves every upstream list unchanged. -/
theorem setNodeDag_upstream (w : World) (j d k : Nat) :
    ((setNodeDag w j d).heap k).upstream = (w.heap k).upstream := by
  by_cases h : k = j <;> simp [setNodeDag, modifyNode, Function.update_apply, h]

/-- `_dag` assignment leaves every downstream list unchanged. -/
theorem setNodeDag_downstream (w : World) (j d k : Nat) :
    ((setNodeDag w j d).heap k).downstream = (w.heap k).downstream := by
  by_cases h : k = j <;> simp [setNodeDag, modifyNode, Function.update_apply, h]

/-- Reading the `_dag` field after a `_dag` assignment. -/
theorem setNodeDag_dag (w : World) (j d k : Nat) :
    ((setNodeDag w j d).heap k).dag = if k = j then some d else (w.heap k).dag := by
  by_cases h : k = j <;> simp [setNodeDag, modifyNode, Function.update_apply, h]

/-- `_dag` assignment touches no DAG record. -/
theorem setNodeDag_dags (w : World) (j d : Nat) : (setNodeDag w j d).dags = w.dags := rfl

/-- An upstream append leaves every node id unchanged. -/
theorem pushUpstream_nodeId (w : World) (i j k : Nat) :
    ((pushUpstream w i j).heap k).nodeId = (w.heap k).nodeId := by
  by_cases h : k = i <;> simp [pushUpstream, modifyNode, Function.update_apply, h]

/-- An upstream append leaves every `_dag` field unchanged. -/
theorem pushUpstream_dag (w : World) (i j k : Nat) :
    ((pushUpstream w i j).heap k).dag = (w.heap k).dag := by
  by_cases h : k = i <;> simp [pushUpstream, modifyNode, Function.update_apply, h]

/-- An upstream append leaves every downstream list unchanged. -/
theorem pushUpstream_downstream (w : World) (i j k : Nat) :
    ((pushUpstream w i j).heap k).downstream = (w.heap k).downstream := by
  by_cases h : k = i <;> simp [pushUpstream, modifyNode, Function.update_apply, h]

/-- Reading an upstream list after an upstream append. -/
theorem pushUpstream_upstream (w : World) (i j k : Nat) :
    ((pushUpstream w i j).heap k).upstream =
      if k = i then (w.heap i).upstream ++ [j] else (w.heap k).upstream := by
  by_cases h : k = i <;> simp [pushUpstream, modifyNode, Function.update_apply, h]

/-- An upstream append touches no DAG record. -/
theorem pushUpstream_dags (w : World) (i j : Nat) : (pushUpstream w i j).dags = w.dags := rfl

/-- A downstream append leaves every node id unchanged. -/
theorem pushDownstream_nodeId (w : World) (i j k : Nat) :
    ((pushDownstream w i j).heap k).nodeId = (w.heap k).nodeId := by
  by_cases h : k = i <;> simp [pushDownstream, modifyNode, Function.update_apply, h]

/-- A downstream append leaves every `_dag` field unchanged. -/
theorem pushDownstream_dag (w : World) (i j k : Nat) :
    ((pushDownstream w i j).heap k).dag = (w.heap k).dag := by
  by_cases h : k = i <;> simp [pushDownstream, modifyNode, Function.update_apply, h]

/-- A downstream append leaves every upstream list unchanged. -/
theorem pushDownstream_upstream (w : World) (i j k : Nat) :
    ((pushDownstream w i j).heap k).upstream = (w.heap k).upstream := by
  by_cases h : k = i <;> simp [pushDownstream, modifyNode, Function.update_apply, h]

/-- Reading a downstream list after a downstream append. -/
theorem pushDownstream_downstream (w : World) (i j k : Nat) :
    ((pushDownstream w i j).heap k).downstream =
      if k = i then (w.heap i).downstream ++ [j] else (w.heap k).downstream := by
  by_cases h : k = i <;> simp [pushDownstream, modifyNode, Function.update_apply, h]

/-- A downstream append touches no DAG record. -/
theorem pushDownstream_dags (w : World) (i j : Nat) : (pushDownstream w i j).dags = w.dags := rfl

/-- `_append_node` mutates only the DAG record, never the node heap. -/
theorem append_node_heap (d n : Nat) (w : World) : (append_node d n w).1.heap = w.heap := by
  rcases hname : (w.heap n).nodeName with _ | nm
  · by_cases hct : acontains (w.dags d).node_map (w.heap n).nodeId = true <;>
      simp [append_node, hname, hct, modifyDag, pyTruthyStr]
  · by_cases hct : acontains (w.dags d).node_map (w.heap n).nodeId = true
    · simp [append_node, hname, hct]
    · by_cases hnm : nm = ""
      · simp [append_node, hname, hct, hnm, pyTruthyStr, modifyDag]
      · by_cases hcf : acontains (w.dags d).node_name_to_node nm = true <;>
          simp [append_node, hname, hct, hnm, hcf, pyTruthyStr, modifyDag]

/-- `_append_node` either leaves the DAG record alone (already registered,
or the raising branch) or appends the fresh `(node_id, node)` entry. -/
theorem append_node_map_shape (d n : Nat) (w : World) :
    (append_node d n w).1.dags d = w.dags d ∨
    (acontains (w.dags d).node_map (w.heap n).nodeId = false ∧
     ((append_node d n w).1.dags d).node_map =
       (w.dags d).node_map ++ [((w.heap n).nodeId, n)]) := by
  rcases hname : (w.heap n).nodeName with _ | nm
  · by_cases hct : acontains (w.dags d).node_map (w.heap n).nodeId = true
    · left
      simp [append_node, hname, hct]
    · right
      simp only [Bool.not_eq_true] at hct
      refine ⟨hct, ?_⟩
      simp [append_node, hname, hct, pyTruthyStr, modifyDag, Function.update_same,
        aset_of_not_contains _ _ _ hct]
  · by_cases hct : acontains (w.dags d).node_map (w.heap n).nodeId = true
    · left
      simp [append_node, hname, hct]
    · by_cases hnm : nm = ""
      · right
        simp only [Bool.not_eq_true] at hct
        refine ⟨hct, ?_⟩
        simp [append_node, hname, hct, hnm, pyTruthyStr, modifyDag, Function.update_same,
          aset_of_not_contains _ _ _ hct]
      · by_cases hcf : acontains (w.dags d).node_name_to_node nm = true
        · left
          simp [append_node, hname, hct, hnm, hcf, pyTruthyStr]
        · right
          simp only [Bool.not_eq_true] at hct
          refine ⟨hct, ?_⟩
          simp [append_node, hname, hct, hnm, hcf, pyTruthyStr, modifyDag,
            Function.update_same, aset_of_not_contains _ _ _ hct]

/-- A successful lookup names an actual entry of the list. -/
theorem alookup_mem {α β : Type} [DecidableEq α] (l : List (α × β)) (k : α) (v : β)
    (h : alookup l k = some v) : (k, v) ∈ l := by
  induction l with
  | nil => simp [alookup] at h
  | cons hd t ih =>
    obtain ⟨a, b⟩ := hd
    by_cases ha : a = k
    · subst ha
      simp [alookup] at h
      simp [h]
    · simp [alookup, ha] at h
      simp [ih h]

/-- `_append_node` never removes a node from the node map. -/
theorem append_node_mapsNode_mono (d n k : Nat) (w : World)
    (h : mapsNode (w.dags d) k = true) :
    mapsNode ((append_node d n w).1.dags d) k = true := by
  rcases append_node_map_shape d n w with h1 | ⟨_, h2⟩
  · rw [mapsNode, h1]
    exact h
  · rw [mapsNode, h2]
    simp only [List.any_append, Bool.or_eq_true]
    exact Or.inl h

/-- When `_append_node` does not raise and every existing entry under this
node id already points to this very node, the node ends up in the node map
(either it was there or it is freshly inserted). -/
theorem append_node_registers (d n : Nat) (w : World)
    (hok : (append_node d n w).2 = none)
    (hKF : ∀ p ∈ (w.dags d).node_map, p.1 = (w.heap n).nodeId → p.2 = n) :
    mapsNode ((append_node d n w).1.dags d) n = true := by
  by_cases hct : acontains (w.dags d).node_map (w.heap n).nodeId = true
  · obtain ⟨v, hv⟩ := Option.isSome_iff_exists.1 hct
    have hmem := alookup_mem _ _ _ hv
    have hvn : v = n := hKF _ hmem rfl
    rw [hvn] at hmem
    have hres : (append_node d n w).1 = w := by
      simp [append_node, hct]
    rw [hres]
    exact List.any_eq_true.2 ⟨_, hmem, by simp⟩
  · rcases append_node_map_shape d n w with h1 | ⟨_, h2⟩
    · -- with a fresh id the only no-insert outcomes are error ones; draw the
      -- contradiction or fall through via the success hypothesis
      rcases hname : (w.heap n).nodeName with _ | nm
      · exfalso
        simp [append_node, hname, hct, pyTruthyStr, modifyDag] at h1
        have := congrArg DAGState.node_map h1
        simp [aset_of_not_contains _ _ _ (by simpa using hct)] at this
      · by_cases hnm : nm = ""
        · exfalso
          simp [append_node, hname, hct, hnm, pyTruthyStr, modifyDag] at h1
          have := congrArg DAGState.node_map h1
          simp [aset_of_not_contains _ _ _ (by simpa using hct)] at this
        · by_cases hcf : acontains (w.dags d).node_name_to_node nm = true
          · exfalso
            simp [append_node, hname, hct, hnm, hcf, pyTruthyStr] at hok
          · exfalso
            simp [append_node, hname, hct, hnm, hcf, pyTruthyStr, modifyDag] at h1
            have := congrArg DAGState.node_map h1
            simp [aset_of_not_contains _ _ _ (by simpa using hct)] at this
    · rw [mapsNode, h2]
      simp only [List.any_append, Bool.or_eq_true]
      right
      simp

/-- Unfolding equation for one iteration of the `set_dependency` loop. -/
theorem setDepLoop_cons (d self : Nat) (isUp : Bool) (j : Nat) (rest : List Nat) (w : World) :
    setDepLoop d self isUp (j :: rest) w =
      if isUp && !(memById w (w.heap self).upstream j) then
        match append_node d j (setNodeDag w j d) with
        | (w2, some e) => (w2, some e)
        | (w2, none) =>
          setDepLoop d self isUp rest (pushDownstream (pushUpstream w2 self j) j self)
      else if !(memById w (w.heap self).downstream j) then
        match append_node d j (setNodeDag w j d) with
        | (w2, some e) => (w2, some e)
        | (w2, none) =>
          setDepLoop d self isUp rest (pushUpstream (pushDownstream w2 self j) j self)
      else setDepLoop d self isUp rest w := rfl

/-- Frame facts for the wiring loop: node ids never change, a `_dag` field
already pointing at the resolved DAG keeps doing so, and registered nodes
stay registered. -/
theorem setDepLoop_mono (d self : Nat) (isUp : Bool) (rest : List Nat) :
    ∀ w : World,
      (∀ k, (((setDepLoop d self isUp rest w).1).heap k).nodeId = (w.heap k).nodeId) ∧
      (∀ k, (w.heap k).dag = some d →
        (((setDepLoop d self isUp rest w).1).heap k).dag = some d) ∧
      (∀ k, mapsNode (w.dags d) k = true →
        mapsNode (((setDepLoop d self isUp rest w).1).dags d) k = true) := by
  induction rest with
  | nil =>
    intro w
    exact ⟨fun k => rfl, fun k h => h, fun k h => h⟩
  | cons j rest ih =>
    intro w
    rw [setDepLoop_cons]
    by_cases h1 : (isUp && !(memById w (w.heap self).upstream j)) = true
    · rw [if_pos h1]
      rcases hap : append_node d j (setNodeDag w j d) with ⟨w2, e⟩
      have hw2heap : w2.heap = (setNodeDag w j d).heap := by
        rw [← append_node_heap d j (setNodeDag w j d), hap]
      have hw2dags : w2.dags = (append_node d j (setNodeDag w j d)).1.dags := by rw [hap]
      rcases e with _ | e
      · dsimp only
        obtain ⟨ihid, ihdag, ihmap⟩ := ih (pushDownstream (pushUpstream w2 self j) j self)
        refine ⟨?_, ?_, ?_⟩
        · intro k
          rw [ihid k]
          simp [pushDownstream_nodeId, pushUpstream_nodeId, hw2heap, setNodeDag_nodeId]
        · intro k hk
          apply ihdag
          simp only [pushDownstream_dag, pushUpstream_dag, hw2heap, setNodeDag_dag]
          by_cases hkj : k = j <;> simp [hkj, hk]
        · intro k hk
          apply ihmap
          show mapsNode (w2.dags d) k = true
          rw [hw2dags]
          exact append_node_mapsNode_mono d j k (setNodeDag w j d) hk
      · dsimp only
        refine ⟨?_, ?_, ?_⟩
        · intro k
          simp [hw2heap, setNodeDag_nodeId]
        · intro k hk
          simp only [hw2heap, setNodeDag_dag]
          by_cases hkj : k = j <;> simp [hkj, hk]
        · intro k hk
          show mapsNode (w2.dags d) k = true
          rw [hw2dags]
          exact append_node_mapsNode_mono d j k (setNodeDag w j d) hk
    · rw [if_neg h1]
      by_cases h2 : (!(memById w (w.heap self).downstream j)) = true
      · rw [if_pos h2]
        rcases hap : append_node d j (setNodeDag w j d) with ⟨w2, e⟩
        have hw2heap : w2.heap = (setNodeDag w j d).heap := by
          rw [← append_node_heap d j (setNodeDag w j d), hap]
        have hw2dags : w2.dags = (append_node d j (setNodeDag w j d)).1.dags := by rw [hap]
        rcases e with _ | e
        · dsimp only
          obtain ⟨ihid, ihdag, ihmap⟩ := ih (pushUpstream (pushDownstream w2 self j) j self)
          refine ⟨?_, ?_, ?_⟩
          · intro k
            rw [ihid k]
            simp [pushDownstream_nodeId, pushUpstream_nodeId, hw2heap, setNodeDag_nodeId]
          · intro k hk
            apply ihdag
            simp only [pushUpstream_dag, pushDownstream_dag, hw2heap, setNodeDag_dag]
            by_cases hkj : k = j <;> simp [hkj, hk]
          · intro k hk
            apply ihmap
            show mapsNode (w2.dags d) k = true
            rw [hw2dags]
            exact append_node_mapsNode_mono d j k (setNodeDag w j d) hk
        · dsimp only
          refine ⟨?_, ?_, ?_⟩
          · intro k
            simp [hw2heap, setNodeDag_nodeId]
          · intro k hk
            simp only [hw2heap, setNodeDag_dag]
            by_cases hkj : k = j <;> simp [hkj, hk]
          · intro k hk
            show mapsNode (w2.dags d) k = true
            rw [hw2dags]
            exact append_node_mapsNode_mono d j k (setNodeDag w j d) hk
      · rw [if_neg h2]
        exact ih w

/-- Python list membership distributes over concatenation. -/
theorem memById_append (w : World) (l1 l2 : List Nat) (j : Nat) :
    memById w (l1 ++ l2) j = (memById w l1 j || memById w l2 j) := by
  simp [memById, List.any_append]

/-- Membership-by-id only depends on the node ids of the heap. -/
theorem memById_congr (w w' : World) (l : List Nat) (j : Nat)
    (h : ∀ k, (w'.heap k).nodeId = (w.heap k).nodeId) :
    memById w' l j = memById w l j := by
  simp [memById, nodeEq, h]

/-- The wiring loop adopts and registers every argument node, provided the
loop completes without raising, the node ids of self and the arguments are
pairwise faithful (equal ids only for identical objects), every existing
node-map entry under one of those ids already points to that object, and each
argument is either not yet an id-equal member of `self._downstream` or already
adopted and registered. -/
theorem setDepLoop_good (d self : Nat) (isUp : Bool) (rest : List Nat) :
    ∀ (w w' : World), setDepLoop d self isUp rest w = (w', none) →
      (∀ k ∈ self :: rest, ∀ k' ∈ self :: rest,
        (w.heap k).nodeId = (w.heap k').nodeId → k = k') →
      (∀ k ∈ self :: rest, ∀ p ∈ (w.dags d).node_map, p.1 = (w.heap k).nodeId → p.2 = k) →
      (∀ j ∈ rest, memById w ((w.heap self).downstream) j = false ∨
        ((w.heap j).dag = some d ∧ mapsNode (w.dags d) j = true)) →
      ∀ j ∈ rest, (w'.heap j).dag = some d ∧ mapsNode (w'.dags d) j = true := by
  induction rest with
  | nil =>
    intro w w' _ _ _ _ j hj
    exact absurd hj (List.not_mem_nil j)
  | cons j0 rest ih =>
    intro w w' hloop hA hB hC j hj
    have hsub : ∀ x, x ∈ self :: rest → x ∈ self :: j0 :: rest := by
      intro x hx
      rcases List.mem_cons.1 hx with h | h
      · simp [h]
      · simp [h]
    rw [setDepLoop_cons] at hloop
    by_cases h1 : (isUp && !(memById w (w.heap self).upstream j0)) = true
    · rw [if_pos h1] at hloop
      rcases hap : append_node d j0 (setNodeDag w j0 d) with ⟨w2, e⟩
      rw [hap] at hloop
      rcases e with _ | e
      · -- success: edge appended upstream-wise
        dsimp only at hloop
        have hw2heap : w2.heap = (setNodeDag w j0 d).heap := by
          rw [← append_node_heap d j0 (setNodeDag w j0 d), hap]
        have hw2dags : w2.dags = (append_node d j0 (setNodeDag w j0 d)).1.dags := by
          rw [hap]
        have hok : (append_node d j0 (setNodeDag w j0 d)).2 = none := by rw [hap]
        have hid4 : ∀ k,
            ((pushDownstream (pushUpstream w2 self j0) j0 self).heap k).nodeId =
              (w.heap k).nodeId := by
          intro k
          simp [pushDownstream_nodeId, pushUpstream_nodeId, hw2heap, setNodeDag_nodeId]
        have hdag4 : ∀ k,
            ((pushDownstream (pushUpstream w2 self j0) j0 self).heap k).dag =
              if k = j0 then some d else (w.heap k).dag := by
          intro k
          simp only [pushDownstream_dag, pushUpstream_dag, hw2heap, setNodeDag_dag]
        have hKFj0 : ∀ p ∈ ((setNodeDag w j0 d).dags d).node_map,
            p.1 = ((setNodeDag w j0 d).heap j0).nodeId → p.2 = j0 := by
          intro p hp hpk
          rw [setNodeDag_nodeId] at hpk
          exact hB j0 (by simp) p hp hpk
        have hgoodj0 :
            ((pushDownstream (pushUpstream w2 self j0) j0 self).heap j0).dag = some d ∧
            mapsNode ((pushDownstream (pushUpstream w2 self j0) j0 self).dags d) j0 = true := by
          constructor
          · rw [hdag4]
            simp
          · show mapsNode (w2.dags d) j0 = true
            rw [hw2dags]
            exact append_node_registers d j0 (setNodeDag w j0 d) hok hKFj0
        have hmap4 :
            ((pushDownstream (pushUpstream w2 self j0) j0 self).dags d).node_map =
              (w.dags d).node_map ∨
            ((pushDownstream (pushUpstream w2 self j0) j0 self).dags d).node_map =
              (w.dags d).node_map ++ [((w.heap j0).nodeId, j0)] := by
          show (w2.dags d).node_map = _ ∨ (w2.dags d).node_map = _
          rw [hw2dags]
          rcases append_node_map_shape d j0 (setNodeDag w j0 d) with hsh | ⟨_, hsh⟩
          · left
            rw [hsh, setNodeDag_dags]
          · right
            rw [hsh, setNodeDag_nodeId, setNodeDag_dags]
        have hmapmono : ∀ k, mapsNode (w.dags d) k = true →
            mapsNode ((pushDownstream (pushUpstream w2 self j0) j0 self).dags d) k = true := by
          intro k hk
          rcases hmap4 with hm | hm <;> rw [mapsNode, hm]
          · exact hk
          · simp only [List.any_append, Bool.or_eq_true]
            exact Or.inl hk
        have hw' : (setDepLoop d self isUp rest
            (pushDownstream (pushUpstream w2 self j0) j0 self)).1 = w' := by
          rw [hloop]
        obtain ⟨mid, mdag, mmap⟩ :=
          setDepLoop_mono d self isUp rest (pushDownstream (pushUpstream w2 self j0) j0 self)
        rcases List.mem_cons.1 hj with hjj0 | hjrest
        · subst hjj0
          constructor
          · rw [← hw']
            exact mdag j hgoodj0.1
          · rw [← hw']
            exact mmap j hgoodj0.2
        · -- j in the remaining arguments: use the induction hypothesis
          apply ih (pushDownstream (pushUpstream w2 self j0) j0 self) w' hloop
          · intro k hk k' hk' he
            rw [hid4 k, hid4 k'] at he
            exact hA k (hsub k hk) k' (hsub k' hk') he
          · intro k hk p hp hpk
            rw [hid4 k] at hpk
            rcases hmap4 with hm | hm
            · rw [hm] at hp
              exact hB k (hsub k hk) p hp hpk
            · rw [hm] at hp
              rcases List.mem_append.1 hp with hp | hp
              · exact hB k (hsub k hk) p hp hpk
              · simp only [List.mem_singleton] at hp
                subst hp
                have : j0 = k := hA j0 (by simp) k (hsub k hk) hpk
                simpa using this
          · intro j' hj'
            have hdown4 :
                ((pushDownstream (pushUpstream w2 self j0) j0 self).heap self).downstream =
                  (w.heap self).downstream ∨
                ((pushDownstream (pushUpstream w2 self j0) j0 self).heap self).downstream =
                  (w.heap self).downstream ++ [j0] := by
              by_cases hsj : self = j0
              · right
                rw [pushDownstream_downstream]
                rw [if_pos hsj]
                rw [pushUpstream_downstream, hw2heap, setNodeDag_downstream, hsj]
              · left
                rw [pushDownstream_downstream]
                rw [if_neg hsj]
                rw [pushUpstream_downstream, hw2heap, setNodeDag_downstream]
            by_cases hjj : j' = j0
            · subst hjj
              right
              exact hgoodj0
            · rcases hC j' (by simp [hj']) with hcm | hcg
              · left
                have hstable : memById (pushDownstream (pushUpstream w2 self j0) j0 self)
                    (w.heap self).downstream j' = false := by
                  rw [memById_congr w _ _ _ hid4]
                  exact hcm
                rcases hdown4 with hd | hd <;> rw [hd]
                · exact hstable
                · rw [memById_append, hstable]
                  simp only [Bool.false_or]
                  simp only [memById, List.any_cons, List.any_nil, Bool.or_false]
                  have hne : ¬(j0 == j') = true := by
                    simp only [beq_iff_eq]
                    exact fun hh => hjj hh.symm
                  have hne2 : nodeEq (pushDownstream (pushUpstream w2 self j0) j0 self) j0 j' = false := by
                    simp only [nodeEq, hid4, decide_eq_false_iff_not]
                    intro hh
                    exact hjj (hA j' (by simp [hj']) j0 (by simp) hh.symm)
                  simp [hne, hne2]
              · right
                constructor
                · rw [hdag4]
                  by_cases hjx : j' = j0
                  · simp [hjx]
                  · simp only [if_neg hjx]
                    exact hcg.1
                · exact hmapmono j' hcg.2
          · exact hjrest
      · -- append_node raised: contradicts the success assumption
        dsimp only at hloop
        exact absurd (congrArg Prod.snd hloop) (by simp)
    · rw [if_neg h1] at hloop
      by_cases h2 : (!(memById w (w.heap self).downstream j0)) = true
      · rw [if_pos h2] at hloop
        rcases hap : append_node d j0 (setNodeDag w j0 d) with ⟨w2, e⟩
        rw [hap] at hloop
        rcases e with _ | e
        · -- success: edge appended downstream-wise
          dsimp only at hloop
          have hw2heap : w2.heap = (setNodeDag w j0 d).heap := by
            rw [← append_node_heap d j0 (setNodeDag w j0 d), hap]
          have hw2dags : w2.dags = (append_node d j0 (setNodeDag w j0 d)).1.dags := by
            rw [hap]
          have hok : (append_node d j0 (setNodeDag w j0 d)).2 = none := by rw [hap]
          have hid4 : ∀ k,
              ((pushUpstream (pushDownstream w2 self j0) j0 self).heap k).nodeId =
                (w.heap k).nodeId := by
            intro k
            simp [pushDownstream_nodeId, pushUpstream_nodeId, hw2heap, setNodeDag_nodeId]
          have hdag4 : ∀ k,
              ((pushUpstream (pushDownstream w2 self j0) j0 self).heap k).dag =
                if k = j0 then some d else (w.heap k).dag := by
            intro k
            simp only [pushDownstream_dag, pushUpstream_dag, hw2heap, setNodeDag_dag]
          have hKFj0 : ∀ p ∈ ((setNodeDag w j0 d).dags d).node_map,
              p.1 = ((setNodeDag w j0 d).heap j0).nodeId → p.2 = j0 := by
            intro p hp hpk
            rw [setNodeDag_nodeId] at hpk
            exact hB j0 (by simp) p hp hpk
          have hgoodj0 :
              ((pushUpstream (pushDownstream w2 self j0) j0 self).heap j0).dag = some d ∧
              mapsNode ((pushUpstream (pushDownstream w2 self j0) j0 self).dags d) j0 = true := by
            constructor
            · rw [hdag4]
              simp
            · show mapsNode (w2.dags d) j0 = true
              rw [hw2dags]
              exact append_node_registers d j0 (setNodeDag w j0 d) hok hKFj0
          have hmap4 :
              ((pushUpstream (pushDownstream w2 self j0) j0 self).dags d).node_map =
                (w.dags d).node_map ∨
              ((pushUpstream (pushDownstream w2 self j0) j0 self).dags d).node_map =
                (w.dags d).node_map ++ [((w.heap j0).nodeId, j0)] := by
            show (w2.dags d).node_map = _ ∨ (w2.dags d).node_map = _
            rw [hw2dags]
            rcases append_node_map_shape d j0 (setNodeDag w j0 d) with hsh | ⟨_, hsh⟩
            · left
              rw [hsh, setNodeDag_dags]
            · right
              rw [hsh, setNodeDag_nodeId, setNodeDag_dags]
          have hmapmono : ∀ k, mapsNode (w.dags d) k = true →
              mapsNode ((pushUpstream (pushDownstream w2 self j0) j0 self).dags d) k = true := by
            intro k hk
            rcases hmap4 with hm | hm <;> rw [mapsNode, hm]
            · exact hk
            · simp only [List.any_append, Bool.or_eq_true]
              exact Or.inl hk
          have hw' : (setDepLoop d self isUp rest
              (pushUpstream (pushDownstream w2 self j0) j0 self)).1 = w' := by
            rw [hloop]
          obtain ⟨mid, mdag, mmap⟩ :=
            setDepLoop_mono d self isUp rest (pushUpstream (pushDownstream w2 self j0) j0 self)
          rcases List.mem_cons.1 hj with hjj0 | hjrest
          · subst hjj0
            constructor
            · rw [← hw']
              exact mdag j hgoodj0.1
            · rw [← hw']
              exact mmap j hgoodj0.2
          · apply ih (pushUpstream (pushDownstream w2 self j0) j0 self) w' hloop
            · intro k hk k' hk' he
              rw [hid4 k, hid4 k'] at he
              exact hA k (hsub k hk) k' (hsub k' hk') he
            · intro k hk p hp hpk
              rw [hid4 k] at hpk
              rcases hmap4 with hm | hm
              · rw [hm] at hp
                exact hB k (hsub k hk) p hp hpk
              · rw [hm] at hp
                rcases List.mem_append.1 hp with hp | hp
                · exact hB k (hsub k hk) p hp hpk
                · simp only [List.mem_singleton] at hp
                  subst hp
                  have : j0 = k := hA j0 (by simp) k (hsub k hk) hpk
                  simpa using this
            · intro j' hj'
              have hdown4 :
                  ((pushUpstream (pushDownstream w2 self j0) j0 self).heap self).downstream =
                    (w.heap self).downstream ++ [j0] := by
                rw [pushUpstream_downstream, pushDownstream_downstream]
                rw [if_pos rfl, hw2heap, setNodeDag_downstream]
              by_cases hjj : j' = j0
              · subst hjj
                right
                exact hgoodj0
              · rcases hC j' (by simp [hj']) with hcm | hcg
                · left
                  have hstable : memById (pushUpstream (pushDownstream w2 self j0) j0 self)
                      (w.heap self).downstream j' = false := by
                    rw [memById_congr w _ _ _ hid4]
                    exact hcm
                  rw [hdown4, memById_append, hstable]
                  simp only [Bool.false_or]
                  simp only [memById, List.any_cons, List.any_nil, Bool.or_false]
                  have hne : ¬(j0 == j') = true := by
                    simp only [beq_iff_eq]
                    exact fun hh => hjj hh.symm
                  have hne2 : nodeEq (pushUpstream (pushDownstream w2 self j0) j0 self) j0 j' = false := by
                    simp only [nodeEq, hid4, decide_eq_false_iff_not]
                    intro hh
                    exact hjj (hA j' (by simp [hj']) j0 (by simp) hh.symm)
                  simp [hne, hne2]
                · right
                  constructor
                  · rw [hdag4]
                    simp only [if_neg hjj]
                    exact hcg.1
                  · exact hmapmono j' hcg.2
            · exact hjrest
        · dsimp only at hloop
          exact absurd (congrArg Prod.snd hloop) (by simp)
      · -- skipped argument: it must already be wired (and hence already good)
        rw [if_neg h2] at hloop
        have hw' : (setDepLoop d self isUp rest w).1 = w' := by rw [hloop]
        obtain ⟨mid, mdag, mmap⟩ := setDepLoop_mono d self isUp rest w
        rcases List.mem_cons.1 hj with hjj0 | hjrest
        · subst hjj0
          have hmem : memById w (w.heap self).downstream j = true := by
            simpa using h2
          rcases hC j (by simp) with hcm | hcg
          · rw [hmem] at hcm
            exact absurd hcm (by simp)
          · constructor
            · rw [← hw']
              exact mdag j hcg.1
            · rw [← hw']
              exact mmap j hcg.2
        · apply ih w w' hloop
          · intro k hk k' hk' he
            exact hA k (hsub k hk) k' (hsub k' hk') he
          · intro k hk p hp hpk
            exact hB k (hsub k hk) p hp hpk
          · intro j' hj'
            exact hC j' (by simp [hj'])
          · exact hjrest

/-- C7 (amended): dependency wiring resolves to exactly one graph or fails:
with no graph on either side the call raises the scope error; with two or more
distinct graphs it raises the cross-graph error; with exactly one graph `d`
and a run that completes without error, self adopts `d` and is registered, and
every argument node adopts `d` and is registered — the latter under the
provisos exhibited necessary by the counterexample: equal node ids only for
identical objects among self and the arguments, no existing node-map entry
under one of those ids pointing to a different object, and each argument
either not yet an id-equal member of `self._downstream` or already adopted
and registered. -/
theorem C7_wiring_resolves_single_graph (w : World) (self : Nat) (args : List Nat)
    (isUp : Bool) :
    (resolvedDags w self args = [] →
      set_dependency self args isUp w =
        (w, some "set dependency to current node must in a DAG context")) ∧
    (∀ d0 d1 ds, resolvedDags w self args = d0 :: d1 :: ds →
      set_dependency self args isUp w =
        (w, some "set dependency to current node just support in one DAG context")) ∧
    (∀ d w', resolvedDags w self args = [d] →
      set_dependency self args isUp w = (w', none) →
      (∀ k ∈ self :: args, ∀ k' ∈ self :: args,
        (w.heap k).nodeId = (w.heap k').nodeId → k = k') →
      (∀ k ∈ self :: args, ∀ p ∈ (w.dags d).node_map, p.1 = (w.heap k).nodeId → p.2 = k) →
      (∀ j ∈ args, memById w ((w.heap self).downstream) j = false ∨
        ((w.heap j).dag = some d ∧ mapsNode (w.dags d) j = true)) →
      ((w'.heap self).dag = some d ∧ mapsNode (w'.dags d) self = true ∧
       ∀ j ∈ args, (w'.heap j).dag = some d ∧ mapsNode (w'.dags d) j = true)) := by
  refine ⟨?_, ?_, ?_⟩
  · intro h
    simp [set_dependency, h]
  · intro d0 d1 ds h
    simp [set_dependency, h]
  · intro d w' hres hsucc hA hB hC
    simp only [set_dependency, hres] at hsucc
    rcases hap : append_node d self (setNodeDag w self d) with ⟨w2, e⟩
    rw [hap] at hsucc
    rcases e with _ | e
    · dsimp only at hsucc
      have hw2heap : w2.heap = (setNodeDag w self d).heap := by
        rw [← append_node_heap d self (setNodeDag w self d), hap]
      have hw2dags : w2.dags = (append_node d self (setNodeDag w self d)).1.dags := by
        rw [hap]
      have hok : (append_node d self (setNodeDag w self d)).2 = none := by rw [hap]
      have hid2 : ∀ k, (w2.heap k).nodeId = (w.heap k).nodeId := by
        intro k
        rw [hw2heap, setNodeDag_nodeId]
      have hselfdag2 : (w2.heap self).dag = some d := by
        rw [hw2heap, setNodeDag_dag]
        simp
      have hselfmap2 : mapsNode (w2.dags d) self = true := by
        rw [hw2dags]
        apply append_node_registers d self (setNodeDag w self d) hok
        intro p hp hpk
        rw [setNodeDag_nodeId] at hpk
        exact hB self (by simp) p hp hpk
      have hmap2 : (w2.dags d).node_map = (w.dags d).node_map ∨
          (w2.dags d).node_map = (w.dags d).node_map ++ [((w.heap self).nodeId, self)] := by
        rw [hw2dags]
        rcases append_node_map_shape d self (setNodeDag w self d) with hsh | ⟨_, hsh⟩
        · left
          rw [hsh, setNodeDag_dags]
        · right
          rw [hsh, setNodeDag_nodeId, setNodeDag_dags]
      have hmapmono2 : ∀ k, mapsNode (w.dags d) k = true → mapsNode (w2.dags d) k = true := by
        intro k hk
        rcases hmap2 with hm | hm <;> rw [mapsNode, hm]
        · exact hk
        · simp only [List.any_append, Bool.or_eq_true]
          exact Or.inl hk
      have hgoods := setDepLoop_good d self isUp args w2 w' hsucc
        (by
          intro k hk k' hk' he
          rw [hid2 k, hid2 k'] at he
          exact hA k hk k' hk' he)
        (by
          intro k hk p hp hpk
          rw [hid2 k] at hpk
          rcases hmap2 with hm | hm
          · rw [hm] at hp
            exact hB k hk p hp hpk
          · rw [hm] at hp
            rcases List.mem_append.1 hp with hp | hp
            · exact hB k hk p hp hpk
            · simp only [List.mem_singleton] at hp
              subst hp
              have : self = k := hA self (by simp) k hk hpk
              simpa using this
        )
        (by
          intro j hjarg
          have hdown2 : (w2.heap self).downstream = (w.heap self).downstream := by
            rw [hw2heap, setNodeDag_downstream]
          rcases hC j hjarg with hcm | hcg
          · left
            rw [hdown2, memById_congr w _ _ _ hid2]
            exact hcm
          · right
            constructor
            · rw [hw2heap, setNodeDag_dag]
              by_cases hjs : j = self
              · simp [hjs]
              · simp only [if_neg hjs]
                exact hcg.1
            · exact hmapmono2 j hcg.2
        )
      obtain ⟨mid, mdag, mmap⟩ := setDepLoop_mono d self isUp args w2
      have hw'eq : (setDepLoop d self isUp args w2).1 = w' := by rw [hsucc]
      refine ⟨?_, ?_, hgoods⟩
      · rw [← hw'eq]
        exact mdag self hselfdag2
      · rw [← hw'eq]
        exact mmap self hselfmap2
    · dsimp only at hsucc
      exact absurd (congrArg Prod.snd hsucc) (by simp)

/-- Two id-bearing nodes bound to the empty DAG 0, plus unbound blank cells
at every other object id. -/
def wC7w : World :=
  ⟨fun n => if n = 1 then ⟨some "a", none, some 0, [], [], false⟩
    else if n = 2 then ⟨some "b", none, some 0, [], [], false⟩
    else blankNode,
   fun _ => ⟨"g", [], [], none, none, none⟩⟩

/-- Witness for `C7_wiring_resolves_single_graph`: conjunct one at the wholly
unbound pair `(4, [5])` (empty resolved set, scope error), conjunct three at
the bound pair `(1, [2])` (successful wiring: both adopted and registered). -/
theorem C7_wiring_resolves_single_graph_witness :
    set_dependency 4 [5] true wC7w =
      (wC7w, some "set dependency to current node must in a DAG context") ∧
    (((set_dependency 1 [2] false wC7w).1).heap 1).dag = some 0 ∧
    mapsNode (((set_dependency 1 [2] false wC7w).1).dags 0) 1 = true ∧
    (((set_dependency 1 [2] false wC7w).1).heap 2).dag = some 0 ∧
    mapsNode (((set_dependency 1 [2] false wC7w).1).dags 0) 2 = true := by
  have h1 := (C7_wiring_resolves_single_graph wC7w 4 [5] true).1 (by decide)
  have h3 := (C7_wiring_resolves_single_graph wC7w 1 [2] false).2.2 0
    (set_dependency 1 [2] false wC7w).1 (by decide) rfl
    (by decide) (by decide) (by decide)
  exact ⟨h1, h3.1, h3.2.1, (h3.2.2 2 (by decide)).1, (h3.2.2 2 (by decide)).2⟩

